import Mathlib

/-!
Verification of the Collection/Document data model of `src/models.py`
(multimongo). The Python classes are shallowly embedded: dicts become
association lists (`Content`), Python values become the inductive `Value`,
fallible code returns `Except PyErr`, and the fresh `ObjectId()` supply is
threaded explicitly as a `Nat` counter. Side effects that the spec makes
observable (diagnostic warnings aside, the `not_in.json` audit artifact and
in-place mutation through aliased dicts) are modelled as explicit return
values.
-/

set_option autoImplicit false

namespace Multimongo

/-- Model of the Python values stored in a document: strings, integers,
BSON ObjectIds (carrying their 24-hex textual form), and `None`. -/
inductive Value where
  | str (s : String)
  | int (n : Int)
  | oid (s : String)
  | pynone
deriving DecidableEq

/-- Python `str()` on a `Value` (`str(ObjectId(h))` is the hex text `h`,
`str(None)` is `"None"`). -/
def vstr : Value → String
  | .str s => s
  | .int n => toString n
  | .oid s => s
  | .pynone => "None"

/-- A Python dict `field name → value`, in insertion order. -/
abbrev Content := List (String × Value)

/-- Dict lookup `c[k]` / membership `k in c` (first entry with the key;
contents built by the modelled code have distinct keys). -/
def lookupContent (c : Content) (k : String) : Option Value :=
  (c.find? (fun p => p.1 == k)).map Prod.snd

/-- Dict assignment `c[k] = v`: updates the existing entry in place
(keeping its position, as Python dicts do) or appends a new entry. -/
def setKey (c : Content) (k : String) (v : Value) : Content :=
  if (c.find? (fun p => p.1 == k)).isSome then
    c.map (fun p => if p.1 == k then (k, v) else p)
  else
    c ++ [(k, v)]

/-- Dict `c.pop(k, None)`'s effect on the dict: the entry with key `k` is
removed, other entries keep their order. -/
def eraseKey (c : Content) (k : String) : Content :=
  c.filter (fun p => p.1 != k)

/-- `re.match("^[a-f0-9]{24}$", s)`: 24 characters, each a decimal digit or
`a`-`f`. -/
def isHex24 (s : String) : Bool :=
  s.length == 24 && s.data.all (fun c => c.isDigit || (Char.ofNat 97 ≤ c && c ≤ Char.ofNat 102))

/-- One step of identifier normalization (`models.py` lines 27-30): a string
value matching the 24-hex pattern becomes `ObjectId(value)`; everything else
is untouched. -/
def normVal : Value → Value
  | .str s => if isHex24 s then .oid s else .str s
  | v => v

/-- The normalization loop of `Document.__init__`: every field's value is
rewritten by `normVal`, uniformly across all fields. -/
def normalizeContent (c : Content) : Content :=
  c.map (fun p => (p.1, normVal p.2))

/-- Python `s.lower()` (ASCII-faithful). -/
def pyLower (s : String) : String :=
  String.mk (s.data.map Char.toLower)

/-- Python `s.replace(" ", "_")` (a single-character pattern, so a
character-wise map). -/
def pyUnderscore (s : String) : String :=
  String.mk (s.data.map (fun c => if c = ' ' then '_' else c))

/-- Errors raised by the modelled code. All are `ValueError` in Python
except `indexError` (unguarded `docs[0]`), `typeError` (`"".join` over a
non-string) and `keyError` (`doc.content["_id"]` on a dict without it); the
`ValueError`s are distinguished here by their message. -/
inductive PyErr where
  | indexError
  | typeError
  | keyError
  | invalidSourceType
  | invalidArgument
  | conflictingIdentifiers
deriving DecidableEq

instance {ε α : Type} [DecidableEq ε] [DecidableEq α] : DecidableEq (Except ε α) := fun x y =>
  match x, y with
  | .ok a, .ok b =>
    if h : a = b then .isTrue (by rw [h]) else .isFalse (fun hh => h (Except.ok.inj hh))
  | .error a, .error b =>
    if h : a = b then .isTrue (by rw [h]) else .isFalse (fun hh => h (Except.error.inj hh))
  | .ok _, .error _ => .isFalse (fun hh => Except.noConfusion hh)
  | .error _, .ok _ => .isFalse (fun hh => Except.noConfusion hh)

/-- The fresh `ObjectId()` minted at step `n` of the explicit supply. -/
def mintOid (n : Nat) : Value :=
  .oid ("mid" ++ toString n)

/-- Python `"".join(vs)`: concatenates when every element is a string,
raises `TypeError` otherwise. -/
def pyJoin : List Value → Except PyErr String
  | [] => .ok ""
  | .str s :: rest => (pyJoin rest).map (fun t => s ++ t)
  | _ :: _ => .error .typeError

/-- A `Document`: its (normalized) content dict plus the derived identity
string. -/
structure Doc where
  content : Content
  id : String
deriving DecidableEq

/-- `Document.__init__(document, ids)` (`models.py` lines 13-30), with the
fresh-ObjectId supply at counter `n`. With a single key field: a present
value gives the identity (spaces to underscores for strings, `str()`
otherwise); an absent one mints an ObjectId, stores it under `_id`, and uses
its text. Otherwise: `"".join` of the raw values of the present key fields
(TypeError when one is not a string), spaces to underscores. Identifier
normalization then rewrites every stored value. -/
def documentInit (document : Content) (ids : List String) (n : Nat) :
    Except PyErr (Doc × Nat) :=
  match ids with
  | [k] =>
    match lookupContent document k with
    | some (.str s) => .ok (⟨normalizeContent document, pyUnderscore s⟩, n)
    | some v => .ok (⟨normalizeContent document, vstr v⟩, n)
    | none =>
      .ok (⟨normalizeContent (setKey document "_id" (mintOid n)), vstr (mintOid n)⟩, n + 1)
  | _ => do
    let j ← pyJoin (ids.filterMap (lookupContent document))
    .ok (⟨normalizeContent document, pyUnderscore j⟩, n)

/-- The fixed timekeeping/identity exclusion set of `Document.__eq__`
(`models.py` line 41). -/
def exclKeys : List String :=
  ["created_at", "updated_at", "createdAt", "updatedAt", "_id"]

/-- `Document.__eq__` (`models.py` lines 38-51), on the two contents. Left
content drives the iteration: excluded keys are skipped; a key absent on the
right only warns and continues; the first key whose case-insensitive `str()`
forms differ makes the whole comparison `false`. -/
def docEq (L R : Content) : Bool :=
  L.all (fun p =>
    exclKeys.contains p.1 ||
    match lookupContent R p.1 with
    | none => true
    | some w => pyLower (vstr p.2) == pyLower (vstr w))

/-- A `Collection`: name, ordered `Document`s, and the per-field skip-value
sets. -/
structure Collection where
  name : String
  documents : List Doc
  skip_values : List (String × List Value)
deriving DecidableEq

/-- The shapes accepted by `Collection.__init__`'s `docs` parameter: `None`,
another `Collection`, a list (of `Document`s or raw dicts), or anything
else. A Python list may in principle mix `Document`s and dicts; no code
path in the repository builds such a list, and the model keeps each list
homogeneous in the branch selected by its first element. -/
inductive DocsArg where
  | noneA
  | collA (c : Collection)
  | listA (xs : List (Doc ⊕ Content))
  | invalidA

def getInl : Doc ⊕ Content → Option Doc
  | .inl d => some d
  | .inr _ => none

def getInr : Doc ⊕ Content → Option Content
  | .inl _ => none
  | .inr m => some m

/-- `[Document(doc, ids) for doc in contents]` with the ObjectId supply
threaded left to right. -/
def buildDocs (contents : List Content) (ids : List String) (n : Nat) :
    Except PyErr (List Doc × Nat) :=
  match contents with
  | [] => .ok ([], n)
  | c :: rest => do
    let (d, n1) ← documentInit c ids n
    let (ds, n2) ← buildDocs rest ids n1
    .ok (d :: ds, n2)

/-- `Collection.__init__` (`models.py` lines 57-74). `None` gives an empty
collection; another `Collection` shares its document list; a list is
dispatched on its first element — which on an empty list is an unguarded
`docs[0]`, an `IndexError`; anything else raises the invalid-source
`ValueError`. -/
def collectionInit (name : String) (docs : DocsArg) (ids : List String)
    (skips : List (String × List Value)) (n : Nat) :
    Except PyErr (Collection × Nat) :=
  match docs with
  | .noneA => .ok (⟨name, [], skips⟩, n)
  | .collA c => .ok (⟨name, c.documents, skips⟩, n)
  | .listA [] => .error .indexError
  | .listA (.inl d :: rest) => .ok (⟨name, d :: rest.filterMap getInl, skips⟩, n)
  | .listA (.inr m :: rest) => do
    let (ds, n1) ← buildDocs (m :: rest.filterMap getInr) ids n
    .ok (⟨name, ds, skips⟩, n1)
  | .invalidA => .error .invalidSourceType

/-- The skip test of `Collection.__contains__` (`models.py` lines 97-101):
a document is excluded when some skip rule's field is present with a value
in that rule's value list. -/
def skipDoc (skips : List (String × List Value)) (d : Doc) : Bool :=
  skips.any (fun kv =>
    match lookupContent d.content kv.1 with
    | some v => kv.2.contains v
    | none => false)

/-- The membership test of `Collection.__contains__` (`models.py` line 106):
`[doc] == [doc2 for doc2 in self.documents if doc.id == doc2.id]` — true
exactly when the id-filtered list is a singleton whose sole element compares
equal under `Document.__eq__` with `d` on the left. -/
def singletonMatch (A : Collection) (d : Doc) : Bool :=
  match A.documents.filter (fun d2 => d.id == d2.id) with
  | [m] => docEq d.content m.content
  | _ => false

/-- The value-stringification applied to each failing record before the
`not_in.json` dump (`models.py` lines 115-117). -/
def stringifyContent (c : Content) : Content :=
  c.map (fun p => (p.1, .str (vstr p.2)))

/-- `Collection.__contains__` (`models.py` lines 91-119): `B in A`, that is
`A.contains_all(B)`. First component: the returned boolean (`True` iff no
non-skipped document of `B` failed the singleton membership test).
Second component: the contents of the `not_in.json` audit artifact (the
failing raw contents, values stringified), written only on failure. -/
def containsAll (A B : Collection) : Bool × Option (List Content) :=
  let notIn := (B.documents.filter
    (fun d => !skipDoc B.skip_values d && !singletonMatch A d)).map Doc.content
  if notIn.isEmpty then (true, none) else (false, some (notIn.map stringifyContent))

/-- The `fields` argument of `Collection.__getitem__`: either an actual
list or a value of some other Python type. -/
inductive FieldsArg where
  | listF (fs : List String)
  | notListF

/-- The slice comprehension of `Collection.__getitem__` (`models.py` line
130): `{field: doc.content[field] for field in fields if field in
doc.content}`. -/
def sliceDoc (fields : List String) (d : Doc) : Content :=
  fields.filterMap (fun f => (lookupContent d.content f).map (fun v => (f, v)))

/-- `Collection.__getitem__` (`models.py` lines 121-133): slices each
document's content down to the requested fields that are present, then
rebuilds a `Collection` from the raw slices (hence through
`Document.__init__` with the default `['_id']` key convention). -/
def getItem (c : Collection) (arg : FieldsArg) (n : Nat) :
    Except PyErr (Collection × Nat) :=
  match arg with
  | .notListF => .error .invalidArgument
  | .listF fields =>
    collectionInit c.name (.listA ((c.documents.map (sliceDoc fields)).map Sum.inr))
      ["_id"] [] n

/-- `Collection.__add__` (`models.py` lines 135-157): compares the two
sets' `doc.content.get('_id')` values (`none` for documents without the
field) and raises the conflicting-identifiers `ValueError` on any overlap;
otherwise rebuilds a `Collection` from the concatenated document lists. -/
def addColl (A B : Collection) (n : Nat) : Except PyErr (Collection × Nat) :=
  let selfIds := A.documents.map (fun d => lookupContent d.content "_id")
  let otherIds := B.documents.map (fun d => lookupContent d.content "_id")
  if selfIds.any (fun x => otherIds.contains x) then
    .error .conflictingIdentifiers
  else
    collectionInit (A.name ++ "_and_" ++ B.name)
      (.listA ((A.documents ++ B.documents).map Sum.inl)) ["_id"] [] n

/-- `Collection.remove_ids(in_place=False)` (`models.py` lines 159-168).
`new_doc = doc.content` copies the reference, not the dict: the `pop('_id')`
and the subsequent `Document.__init__` inside `Collection(...)` (which mints
a fresh `_id` into the dict and normalizes its values) mutate the original
documents' content dicts. The first component is the original collection as
observed after the call (old `id` attributes, mutated contents shared with
the returned documents); the second is the returned collection. -/
def removeIds (c : Collection) (n : Nat) :
    Except PyErr (Collection × Collection × Nat) := do
  let contents1 := c.documents.map (fun d => eraseKey d.content "_id")
  let (ret, n1) ← collectionInit c.name (.listA (contents1.map Sum.inr)) ["_id"] [] n
  let after : Collection :=
    ⟨c.name, (c.documents.zip ret.documents).map (fun p => ⟨p.2.content, p.1.id⟩),
      c.skip_values⟩
  .ok (after, ret, n1)

/-- `Collection.remove_ids(in_place=True)` (`models.py` lines 159-166): the
value assigned to `self.documents` — the raw content dicts themselves
(`_id` popped), not `Document` objects. An element of the internal sequence
is thus either a `Document` (`Sum.inl`) or a raw dict (`Sum.inr`). -/
def removeIdsInPlaceSeq (c : Collection) : List (Doc ⊕ Content) :=
  c.documents.map (fun d => Sum.inr (eraseKey d.content "_id"))

/-- The key-field list that `Collection.transform` and `Collection.resolve`
actually hand to `Document.__init__`: the string `doc.id` itself, which
Python then treats as a sequence of one-character strings. -/
def stringAsIds (s : String) : List String :=
  s.data.map Char.toString

/-- The per-document loop of `Collection.transform` (`models.py` lines
176-186): copy the content, set `newName` from `f` of the `column` value
(or the `"UNAVAILABLE"` sentinel when `column` is absent), and rebuild the
`Document` passing `doc.id` — a string — as the `ids` argument. -/
def transformDocs (docs : List Doc) (newName column : String) (f : Value → Value)
    (n : Nat) : Except PyErr (List Doc × Nat) :=
  match docs with
  | [] => .ok ([], n)
  | d :: rest => do
    let nc := match lookupContent d.content column with
      | some v => setKey d.content newName (f v)
      | none => setKey d.content newName (.str "UNAVAILABLE")
    let (nd, n1) ← documentInit nc (stringAsIds d.id) n
    let (ds, n2) ← transformDocs rest newName column f n1
    .ok (nd :: ds, n2)

/-- `Collection.transform(new_name, column, func, in_place=False)`
(`models.py` lines 170-191): the returned new collection. -/
def transform (c : Collection) (newName column : String) (f : Value → Value)
    (n : Nat) : Except PyErr (Collection × Nat) := do
  let (ds, n1) ← transformDocs c.documents newName column f n
  collectionInit c.name (.listA (ds.map Sum.inl)) ["_id"] [] n1

/-- The lookup dict of `Collection.resolve` (`models.py` line 204):
`{doc.content["_id"]: doc.content for doc in other.documents}` — a
`KeyError` when a document lacks `_id`; on duplicate keys the last document
wins (dict comprehension semantics). -/
def buildLookup (docs : List Doc) : Except PyErr (List (Value × Content)) :=
  match docs with
  | [] => .ok []
  | d :: rest =>
    match lookupContent d.content "_id" with
    | none => .error .keyError
    | some v => (buildLookup rest).map (fun tbl => (v, d.content) :: tbl)

/-- Lookup in the dict built by `buildLookup`: the last entry with the key
wins, so search the reversed list. -/
def tblGet (tbl : List (Value × Content)) (v : Value) : Option Content :=
  (tbl.reverse.find? (fun p => p.1 == v)).map Prod.snd

/-- The per-document mapping loop of `Collection.resolve` (`models.py`
lines 209-217): for each `(key_self, key_other)` pair in order, when
`key_self` is present and its value keys into the lookup, replace it with
the looked-up content's `key_other` value (`.get` — `None` when absent). -/
def resolveContent (tbl : List (Value × Content)) (mapping : List (String × String))
    (c0 : Content) : Content :=
  mapping.foldl (fun acc km =>
    match lookupContent acc km.1 with
    | none => acc
    | some lid =>
      match tblGet tbl lid with
      | none => acc
      | some rec0 => setKey acc km.1 ((lookupContent rec0 km.2).getD .pynone)) c0

/-- The per-document loop of `Collection.resolve` (`models.py` lines
208-220): resolve the copied content, then rebuild the `Document` passing
`doc.id` — a string — as the `ids` argument. -/
def resolveDocs (docs : List Doc) (tbl : List (Value × Content))
    (mapping : List (String × String)) (n : Nat) : Except PyErr (List Doc × Nat) :=
  match docs with
  | [] => .ok ([], n)
  | d :: rest => do
    let (nd, n1) ← documentInit (resolveContent tbl mapping d.content) (stringAsIds d.id) n
    let (ds, n2) ← resolveDocs rest tbl mapping n1
    .ok (nd :: ds, n2)

/-- `Collection.resolve(other, mapping, in_place=False)` (`models.py`
lines 199-225): the returned new collection. -/
def resolveColl (c other : Collection) (mapping : List (String × String))
    (n : Nat) : Except PyErr (Collection × Nat) := do
  let tbl ← buildLookup other.documents
  let (ds, n1) ← resolveDocs c.documents tbl mapping n
  collectionInit c.name (.listA (ds.map Sum.inl)) ["_id"] [] n1

/-- Upstream of `Except.isOk`; whether a modelled call succeeded. -/
def exceptOk {ε α : Type} : Except ε α → Bool
  | .ok _ => true
  | .error _ => false

/-- Whether a Python value is a string. -/
def isStr : Value → Bool
  | .str _ => true
  | _ => false

/-- Order-preserving concatenation of a list of strings (the spec-side
reading of `"".join`). -/
def concatStrs : List String → String
  | [] => ""
  | s :: rest => s ++ concatStrs rest

theorem normVal_idem (v : Value) : normVal (normVal v) = normVal v := by
  cases v with
  | str s =>
    by_cases h : isHex24 s
    · simp [normVal, h]
    · simp [normVal, h]
  | int n => rfl
  | oid s => rfl
  | pynone => rfl

theorem normalizeContent_idem (c : Content) :
    normalizeContent (normalizeContent c) = normalizeContent c := by
  induction c with
  | nil => rfl
  | cons p rest ih =>
    simp only [normalizeContent, List.map_cons, List.map_map] at ih ⊢
    exact List.cons_eq_cons.mpr ⟨by rw [normVal_idem], ih⟩

theorem normalizeContent_keys (c : Content) :
    (normalizeContent c).map Prod.fst = c.map Prod.fst := by
  induction c with
  | nil => rfl
  | cons p rest ih => simp only [normalizeContent, List.map_cons] at ih ⊢; rw [ih]

theorem lookupContent_self (L : Content) (k : String) (v : Value)
    (hnd : (L.map Prod.fst).Nodup) (hm : (k, v) ∈ L) : lookupContent L k = some v := by
  induction L with
  | nil => cases hm
  | cons p rest ih =>
    rcases List.mem_cons.mp hm with h | h
    · subst h
      simp [lookupContent, List.find?]
    · have hk : k ∈ rest.map Prod.fst := List.mem_map.mpr ⟨(k, v), h, rfl⟩
      have hne : p.1 ≠ k := by
        intro he
        exact (List.nodup_cons.mp hnd).1 (he ▸ hk)
      have : (p.1 == k) = false := by simp [hne]
      simp only [lookupContent, List.find?, this]
      exact ih (List.nodup_cons.mp hnd).2 h

/-- Claim C9: identifier normalization replaces every field whose value is
a string matching `^[a-f0-9]{24}$` with the identifier type, leaves every
other field unchanged, acts uniformly on all fields (the key sequence is
preserved), and is idempotent. -/
theorem c9_normalize_idempotent_uniform (c : Content) :
    normalizeContent (normalizeContent c) = normalizeContent c ∧
    (normalizeContent c).map Prod.fst = c.map Prod.fst ∧
    ∀ k v, (k, v) ∈ c →
      (∀ s, v = Value.str s → isHex24 s = true → (k, Value.oid s) ∈ normalizeContent c) ∧
      ((∀ s, v = Value.str s → isHex24 s = false) → (k, v) ∈ normalizeContent c) := by
  refine ⟨normalizeContent_idem c, normalizeContent_keys c, ?_⟩
  intro k v hm
  have hbase : (k, normVal v) ∈ normalizeContent c :=
    List.mem_map.mpr ⟨(k, v), hm, rfl⟩
  constructor
  · intro s hs hhex
    subst hs
    simpa [normVal, hhex] using hbase
  · intro hnot
    have : normVal v = v := by
      cases v with
      | str s => simp [normVal, hnot s rfl]
      | int n => rfl
      | oid s => rfl
      | pynone => rfl
    rwa [this] at hbase

/-- Claim C9, witness: a 24-hex string field becomes an ObjectId, an
integer field is untouched, and normalization is idempotent, at a concrete
two-field record. -/
theorem c9_witness :
    normalizeContent (normalizeContent
        [("r", Value.str "0123456789abcdef01234567"), ("k", Value.int 2)]) =
      normalizeContent [("r", Value.str "0123456789abcdef01234567"), ("k", Value.int 2)] ∧
    ("r", Value.oid "0123456789abcdef01234567") ∈
      normalizeContent [("r", Value.str "0123456789abcdef01234567"), ("k", Value.int 2)] ∧
    ("k", Value.int 2) ∈
      normalizeContent [("r", Value.str "0123456789abcdef01234567"), ("k", Value.int 2)] := by
  refine ⟨(c9_normalize_idempotent_uniform _).1, ?_, ?_⟩
  · exact ((c9_normalize_idempotent_uniform _).2.2 "r" _ (by decide)).1 _ rfl (by decide)
  · exact ((c9_normalize_idempotent_uniform _).2.2 "k" _ (by decide)).2 (fun s h => nomatch h)

/-- Claim C5: `Document.__eq__` returns `true` iff every field of the left
content outside the fixed timekeeping/identity exclusion set is either
absent on the right or has a matching case-insensitive string form; a
single mismatch gives `false`, and fields present only on the right are
never examined (the characterization only mentions the left record's
fields). In particular the comparison is reflexive for identical content.
-/
theorem c5_doc_equality :
    (∀ L R : Content, docEq L R = true ↔
      ∀ p ∈ L, p.1 ∉ exclKeys →
        (lookupContent R p.1 = none ∨
          ∃ w, lookupContent R p.1 = some w ∧ pyLower (vstr p.2) = pyLower (vstr w))) ∧
    (∀ L : Content, (L.map Prod.fst).Nodup → docEq L L = true) := by
  have helem : ∀ (R : Content) (p : String × Value),
      ((exclKeys.contains p.1 ||
        match lookupContent R p.1 with
        | none => true
        | some w => pyLower (vstr p.2) == pyLower (vstr w)) = true ↔
      (p.1 ∉ exclKeys →
        (lookupContent R p.1 = none ∨
          ∃ w, lookupContent R p.1 = some w ∧ pyLower (vstr p.2) = pyLower (vstr w)))) := by
    intro R p
    by_cases hc : p.1 ∈ exclKeys
    · simp [List.elem_iff.mpr hc, hc]
    · have : exclKeys.contains p.1 = false := by
        rcases h : exclKeys.contains p.1 with _ | _
        · rfl
        · exact absurd (List.elem_iff.mp h) hc
      rcases hl : lookupContent R p.1 with _ | w
      · simp [this, hc, hl]
      · simp [this, hc, hl, beq_iff_eq]
  constructor
  · intro L R
    rw [docEq, List.all_eq_true]
    exact forall_congr' (fun p => forall_congr' (fun hp => helem R p))
  · intro L hnd
    rw [docEq, List.all_eq_true]
    intro p hp
    rw [helem L p]
    intro _
    right
    exact ⟨p.2, lookupContent_self L p.1 p.2 hnd hp, rfl⟩

/-- Claim C5, witness: equality holds at a concrete pair differing only in
letter case, and reflexivity holds at a concrete one-field content. -/
theorem c5_witness :
    docEq [("a", Value.str "X")] [("a", Value.str "x")] = true ∧
    docEq [("b", Value.int 3)] [("b", Value.int 3)] = true := by
  constructor
  · refine (c5_doc_equality.1 _ _).mpr ?_
    intro p hp hx
    simp only [List.mem_singleton] at hp
    subst hp
    exact Or.inr ⟨Value.str "x", by decide, by decide⟩
  · exact c5_doc_equality.2 _ (by decide)

/-- Claim C1, counterexample: take `A` holding two documents with identity
`"x"` and identical content and `B` holding one such document. Every
non-skipped record of `B` has an identity-equal, `Document.__eq__`-equal
record in `A`, yet `contains_all` returns `false`: the singleton-list
comparison `[doc] == [doc2 ...]` fails as soon as two identity matches
exist. -/
theorem c1_counterexample :
    (containsAll ⟨"A", [⟨[("name", Value.str "x")], "x"⟩, ⟨[("name", Value.str "x")], "x"⟩], []⟩
        ⟨"B", [⟨[("name", Value.str "x")], "x"⟩], []⟩).1 = false ∧
    ∀ d ∈ (⟨"B", [⟨[("name", Value.str "x")], "x"⟩], []⟩ : Collection).documents,
      skipDoc ([] : List (String × List Value)) d = false →
      ∃ d2 ∈ (⟨"A", [⟨[("name", Value.str "x")], "x"⟩, ⟨[("name", Value.str "x")], "x"⟩], []⟩ : Collection).documents,
        d2.id = d.id ∧ docEq d.content d2.content = true := by
  decide

theorem singletonMatch_iff (A : Collection) (d : Doc) :
    singletonMatch A d = true ↔
      ∃ m, A.documents.filter (fun d2 => d.id == d2.id) = [m] ∧
        docEq d.content m.content = true := by
  rcases hl : A.documents.filter (fun d2 => d.id == d2.id) with _ | ⟨m, _ | ⟨m2, tl⟩⟩
  · simp [singletonMatch, hl]
  · simp [singletonMatch, hl]
  · simp [singletonMatch, hl]

/-- Claim C1, amended: `contains_all(B)` returns `true` iff every record of
`B` not excluded by `B`'s skip-value rules has *exactly one* identity-equal
record in `A`, and that record's content compares equal under
`Document.__eq__` with `B`'s record on the left (the singleton-list
comparison also fails when several identity-equal records exist, even if
all compare equal). On failure — and only then — the audit artifact holds
the failing records' raw contents with every value stringified. -/
theorem c1_amended_contains_all (A B : Collection) :
    ((containsAll A B).1 = true ↔
      ∀ d ∈ B.documents, skipDoc B.skip_values d = false →
        ∃ m, A.documents.filter (fun d2 => d.id == d2.id) = [m] ∧
          docEq d.content m.content = true) ∧
    ((containsAll A B).2 =
      if (containsAll A B).1 then none
      else some (((B.documents.filter
        (fun d => !skipDoc B.skip_values d && !singletonMatch A d)).map Doc.content).map
          stringifyContent)) := by
  constructor
  · rcases hni : ((B.documents.filter
        (fun d => !skipDoc B.skip_values d && !singletonMatch A d)).map Doc.content).isEmpty
      with _ | _
    · have h1 : (containsAll A B).1 = false := by simp [containsAll, hni]
      rw [h1]
      have hne : ∃ d ∈ B.documents,
          (!skipDoc B.skip_values d && !singletonMatch A d) = true := by
        by_contra hc
        push_neg at hc
        rw [List.filter_eq_nil_iff.mpr hc] at hni
        simp at hni
      rcases hne with ⟨d, hd, hp⟩
      rw [Bool.and_eq_true, Bool.not_eq_true', Bool.not_eq_true'] at hp
      constructor
      · intro h
        cases h
      · intro h
        exact absurd ((singletonMatch_iff A d).mpr (h d hd hp.1)) (by simp [hp.2])
    · have h1 : (containsAll A B).1 = true := by simp [containsAll, hni]
      rw [h1]
      rw [List.isEmpty_iff, List.map_eq_nil_iff, List.filter_eq_nil_iff] at hni
      simp only [true_iff]
      intro d hd hskip
      have := hni d hd
      rw [Bool.not_eq_true, Bool.and_eq_false_iff, Bool.not_eq_false', Bool.not_eq_false'] at this
      rcases this with h | h
      · rw [hskip] at h
        cases h
      · exact (singletonMatch_iff A d).mp h
  · rcases hni : ((B.documents.filter
        (fun d => !skipDoc B.skip_values d && !singletonMatch A d)).map Doc.content).isEmpty
      with _ | _
    · simp [containsAll, hni]
    · simp [containsAll, hni]

/-- Claim C1, amended, witness: a collection audited against itself passes
when its single document matches itself uniquely. -/
theorem c1_witness :
    (containsAll ⟨"A", [⟨[("a", Value.str "x")], "x"⟩], []⟩
      ⟨"A", [⟨[("a", Value.str "x")], "x"⟩], []⟩).1 = true :=
  (c1_amended_contains_all _ _).1.mpr (by
    intro d hd hskip
    simp only [List.mem_singleton] at hd
    subst hd
    exact ⟨⟨[("a", Value.str "x")], "x"⟩, by decide, by decide⟩)

/-- Claim C2: `transform` and `resolve` do not pass the identity through —
they pass the identity string itself as the key-field list, so the rebuilt
`Document` re-derives its identity from the characters of the old identity
treated as field names. For a document with content
`{"name": "some name"}` and identity `"some_name"`, both operations rebuild
it with identity `""`, not `"some_name"`. -/
theorem c2_identity_not_preserved :
    transform ⟨"C", [⟨[("name", Value.str "some name")], "some_name"⟩], []⟩
        "u" "name" (fun v => v) 0 =
      .ok (⟨"C", [⟨[("name", Value.str "some name"), ("u", Value.str "some name")], ""⟩], []⟩, 0) ∧
    resolveColl ⟨"C", [⟨[("name", Value.str "some name")], "some_name"⟩], []⟩
        ⟨"O", [], []⟩ [] 0 =
      .ok (⟨"C", [⟨[("name", Value.str "some name")], ""⟩], []⟩, 0) ∧
    ("" : String) ≠ "some_name" := by
  decide

/-- Claim C3, counterexample: constructing a collection from an empty raw
list does not succeed — `Collection.__init__` inspects `docs[0]`
unconditionally. -/
theorem c3_counterexample :
    exceptOk (collectionInit "c" (.listA []) ["_id"] [] 0) = false := by
  decide

/-- Claim C3, amended: constructing from an empty list raises an
`IndexError` — the element-type check is not skipped; the first element is
accessed unconditionally, whatever the name, key fields, skip values or
ObjectId counter. -/
theorem c3_amended_empty_list_raises (name : String) (ids : List String)
    (skips : List (String × List Value)) (n : Nat) :
    collectionInit name (.listA []) ids skips n = .error .indexError := by
  rfl

/-- Claim C3, amended, witness at a concrete input. -/
theorem c3_amended_witness :
    collectionInit "c" (.listA []) ["_id"] [] 0 = .error .indexError :=
  c3_amended_empty_list_raises "c" ["_id"] [] 0

/-- Claim C4, counterexample: with two key fields and a present non-string
value, identity derivation fails with a `TypeError` — `"".join` receives
the raw value, not its string form. -/
theorem c4_counterexample :
    documentInit [("a", Value.int 5), ("b", Value.str "x")] ["a", "b"] 0 =
      .error .typeError := by
  decide

theorem pyJoin_strings (vs : List Value) (h : vs.all isStr = true) :
    pyJoin vs = .ok (concatStrs (vs.map vstr)) := by
  induction vs with
  | nil => rfl
  | cons v rest ih =>
    rw [List.all_cons, Bool.and_eq_true] at h
    rcases h with ⟨hv, hrest⟩
    cases v with
    | str s => simp [pyJoin, concatStrs, vstr, ih hrest, Except.map]
    | int n => cases hv
    | oid s => cases hv
    | pynone => cases hv

theorem pyJoin_nonstring (vs : List Value) (h : vs.all isStr = false) :
    pyJoin vs = .error .typeError := by
  induction vs with
  | nil => cases h
  | cons v rest ih =>
    cases v with
    | str s =>
      rw [List.all_cons] at h
      simp only [isStr, Bool.true_and] at h
      rw [pyJoin, ih h]
      rfl
    | int m => rfl
    | oid s => rfl
    | pynone => rfl

/-- Claim C4, amended: with two or more key fields, identity derivation
succeeds exactly for raw records in which every *present* key field holds a
string value. When all present values are strings, the identity is the
concatenation, in the given order, of those values with spaces replaced by
underscores, missing key fields are silently skipped, the record content is
only normalized, and no identifier is minted; when some present key field
holds a non-string value, derivation raises a `TypeError` instead, so it is
not failure-free. -/
theorem c4_amended_multi_key_identity (d : Content) (ids : List String) (n : Nat)
    (hlen : 2 ≤ ids.length) :
    ((ids.filterMap (lookupContent d)).all isStr = true →
      documentInit d ids n =
        .ok (⟨normalizeContent d,
          pyUnderscore (concatStrs ((ids.filterMap (lookupContent d)).map vstr))⟩, n)) ∧
    ((ids.filterMap (lookupContent d)).all isStr = false →
      documentInit d ids n = .error .typeError) := by
  match ids, hlen with
  | k1 :: k2 :: rest, _ =>
    constructor
    · intro hstr
      simp only [documentInit]
      rw [pyJoin_strings _ hstr]
      rfl
    · intro hfail
      simp only [documentInit]
      rw [pyJoin_nonstring _ hfail]
      rfl

/-- Claim C4, amended, witness: key fields `["a", "b"]` with only `a`
present (a string with a space) give identity `"p_q"` without failing,
while a present integer value under `a` fails with a `TypeError`. -/
theorem c4_witness :
    documentInit [("a", Value.str "p q")] ["a", "b"] 7 =
      .ok (⟨[("a", Value.str "p q")], "p_q"⟩, 7) ∧
    documentInit [("a", Value.int 5), ("b", Value.str "x")] ["a", "b"] 1 =
      .error .typeError :=
  ⟨((c4_amended_multi_key_identity [("a", Value.str "p q")] ["a", "b"] 7
      (by decide)).1 (by decide)).trans (by decide),
   (c4_amended_multi_key_identity [("a", Value.int 5), ("b", Value.str "x")] ["a", "b"] 1
      (by decide)).2 (by decide)⟩

/-- Claim C6, counterexample: two collections whose documents all lack the
reserved `_id` field share no identifier value, yet `__add__` raises the
conflicting-identifiers error — `content.get('_id')` yields the missing
marker for every document of both sets, and the marker collides with
itself. -/
theorem c6_counterexample :
    addColl ⟨"A", [⟨[("name", Value.str "x")], "x"⟩], []⟩
        ⟨"B", [⟨[("name", Value.str "y")], "y"⟩], []⟩ 0 =
      .error .conflictingIdentifiers ∧
    (⟨"A", [⟨[("name", Value.str "x")], "x"⟩], []⟩ : Collection).documents.all
      (fun d => (lookupContent d.content "_id").isNone) = true ∧
    (⟨"B", [⟨[("name", Value.str "y")], "y"⟩], []⟩ : Collection).documents.all
      (fun d => (lookupContent d.content "_id").isNone) = true := by
  decide

theorem filterMap_getInl_map_inl (l : List Doc) :
    (l.map Sum.inl).filterMap getInl = l := by
  induction l with
  | nil => rfl
  | cons d rest ih => simp [List.filterMap_cons, getInl, ih]

theorem filterMap_getInr_map_inr (l : List Content) :
    (l.map Sum.inr).filterMap getInr = l := by
  induction l with
  | nil => rfl
  | cons m rest ih => simp [List.filterMap_cons, getInr, ih]

/-- Claim C6, amended: `concat` raises `ConflictingIdentifiers` exactly
when the two sets share some *lookup result* of the reserved identity
field, where a record lacking the field contributes the missing-value
marker — so two sets whose records all lack `_id` conflict spuriously (see
the counterexample). Otherwise, when at least one record exists, it
returns the new RecordSet named with the `_and_` separator holding `A`'s
records then `B`'s; when both sets are empty it raises an `IndexError`
instead (the rebuild inspects the first element of an empty list). -/
theorem c6_amended_concat (A B : Collection) (n : Nat) :
    (addColl A B n = .error .conflictingIdentifiers ↔
      ∃ x, x ∈ A.documents.map (fun d => lookupContent d.content "_id") ∧
        x ∈ B.documents.map (fun d => lookupContent d.content "_id")) ∧
    ((¬ ∃ x, x ∈ A.documents.map (fun d => lookupContent d.content "_id") ∧
        x ∈ B.documents.map (fun d => lookupContent d.content "_id")) →
      (A.documents ++ B.documents = [] → addColl A B n = .error .indexError) ∧
      (A.documents ++ B.documents ≠ [] →
        addColl A B n =
          .ok (⟨A.name ++ "_and_" ++ B.name, A.documents ++ B.documents, []⟩, n))) := by
  have hany : ((A.documents.map (fun d => lookupContent d.content "_id")).any
      (fun x => (B.documents.map (fun d => lookupContent d.content "_id")).contains x) = true) ↔
      ∃ x, x ∈ A.documents.map (fun d => lookupContent d.content "_id") ∧
        x ∈ B.documents.map (fun d => lookupContent d.content "_id") := by
    rw [List.any_eq_true]
    exact exists_congr (fun x => and_congr_right (fun _ => List.elem_iff))
  rcases hc : (A.documents.map (fun d => lookupContent d.content "_id")).any
      (fun x => (B.documents.map (fun d => lookupContent d.content "_id")).contains x)
      with _ | _
  · constructor
    · constructor
      · intro h
        rw [addColl] at h
        rw [hc] at h
        rcases he : A.documents ++ B.documents with _ | ⟨d, rest⟩
        · rw [he] at h
          simp only [List.map_nil] at h
          cases h
        · rw [he] at h
          simp only [List.map_cons, collectionInit] at h
          cases h
      · intro h
        have hx := hany.mpr h
        rw [hc] at hx
        cases hx
    · intro _
      constructor
      · intro he
        rw [addColl, hc, he]
        rfl
      · intro he
        rcases List.exists_cons_of_ne_nil he with ⟨d, rest, hd⟩
        rw [addColl, hc, hd]
        simp only [List.map_cons, collectionInit]
        rw [filterMap_getInl_map_inl]
        rw [← hd]
        simp
  · constructor
    · constructor
      · intro _
        exact hany.mp hc
      · intro _
        rw [addColl, hc]
        simp
    · intro h
      exact absurd (hany.mp hc) h

/-- Claim C6, amended, witness: two singleton collections with distinct
`_id` values concatenate into `"A_and_B"` with the records in order. -/
theorem c6_witness :
    addColl ⟨"A", [⟨[("_id", Value.oid "a1")], "a1"⟩], []⟩
        ⟨"B", [⟨[("_id", Value.oid "b1")], "b1"⟩], []⟩ 3 =
      .ok (⟨"A_and_B",
        [⟨[("_id", Value.oid "a1")], "a1"⟩, ⟨[("_id", Value.oid "b1")], "b1"⟩], []⟩, 3) :=
  ((c6_amended_concat ⟨"A", [⟨[("_id", Value.oid "a1")], "a1"⟩], []⟩
      ⟨"B", [⟨[("_id", Value.oid "b1")], "b1"⟩], []⟩ 3).2 (by decide)).2 (by decide)

/-- Claim C7, counterexample: projecting a one-document collection onto
`["a"]` yields a document that also carries a freshly minted `_id` field —
the slices are rebuilt through `Document.__init__` under the default
`['_id']` convention, which mints and stores an identifier when the field
is absent. So a field outside the requested intersection appears. -/
theorem c7_counterexample :
    getItem ⟨"C", [⟨[("a", Value.str "x"), ("b", Value.str "y"), ("_id", Value.oid "mid9")], "mid9"⟩], []⟩
        (.listF ["a"]) 5 =
      .ok (⟨"C", [⟨[("a", Value.str "x"), ("_id", Value.oid "mid5")], "mid5"⟩], []⟩, 6) ∧
    ("_id" ∈ ([("a", Value.str "x"), ("_id", Value.oid "mid5")] : Content).map Prod.fst) ∧
    ("_id" ∉ (["a"] : List String)) := by
  decide

theorem exceptBind_ok {ε α β : Type} (a : α) (f : α → Except ε β) :
    (Except.ok a : Except ε α) >>= f = f a := rfl

theorem setKey_keys_absent (c : Content) (k : String) (v : Value)
    (h : lookupContent c k = none) :
    (setKey c k v).map Prod.fst = c.map Prod.fst ++ [k] := by
  have hf : c.find? (fun p => p.1 == k) = none := by
    rcases hx : c.find? (fun p => p.1 == k) with _ | w
    · exact hx
    · rw [lookupContent, hx] at h
      cases h
  rw [setKey, hf]
  simp

theorem lookupContent_isSome_eq (c : Content) (k : String) :
    (lookupContent c k).isSome = (c.map Prod.fst).contains k := by
  rw [Bool.eq_iff_iff, List.elem_iff, lookupContent, Option.isSome_map']
  rw [show ((c.find? (fun p => p.1 == k)).isSome = true) ↔ (c.find? (fun p => p.1 == k)).isSome
    from Iff.rfl]
  rw [List.find?_isSome]
  constructor
  · intro hs
    rcases hs with ⟨p, hp, hk⟩
    have : p.1 = k := by simpa using hk
    exact this ▸ List.mem_map.mpr ⟨p, hp, rfl⟩
  · intro hk
    rcases List.mem_map.mp hk with ⟨p, hp, hfst⟩
    exact ⟨p, hp, by simp [hfst]⟩

theorem sliceDoc_keys (fs : List String) (d : Doc) :
    (sliceDoc fs d).map Prod.fst = fs.filter (fun f => (lookupContent d.content f).isSome) := by
  rw [sliceDoc]
  induction fs with
  | nil => rfl
  | cons f rest ih =>
    rcases h : lookupContent d.content f with _ | v <;>
      simp [List.filterMap_cons, List.filter_cons, h, ih]

theorem documentInit_id_keys (c : Content) (n : Nat) :
    ∃ d n1, documentInit c ["_id"] n = .ok (d, n1) ∧
      d.content.map Prod.fst =
        (if (lookupContent c "_id").isSome then c.map Prod.fst
         else c.map Prod.fst ++ ["_id"]) := by
  rcases h : lookupContent c "_id" with _ | v
  · refine ⟨⟨normalizeContent (setKey c "_id" (mintOid n)), vstr (mintOid n)⟩, n + 1, ?_, ?_⟩
    · simp [documentInit, h]
    · simp [h, normalizeContent_keys, setKey_keys_absent c "_id" (mintOid n) h]
  · cases v with
    | str s =>
      refine ⟨⟨normalizeContent c, pyUnderscore s⟩, n, ?_, ?_⟩
      · simp [documentInit, h]
      · simp [h, normalizeContent_keys]
    | int m =>
      refine ⟨⟨normalizeContent c, vstr (Value.int m)⟩, n, ?_, ?_⟩
      · simp [documentInit, h]
      · simp [h, normalizeContent_keys]
    | oid s =>
      refine ⟨⟨normalizeContent c, vstr (Value.oid s)⟩, n, ?_, ?_⟩
      · simp [documentInit, h]
      · simp [h, normalizeContent_keys]
    | pynone =>
      refine ⟨⟨normalizeContent c, vstr Value.pynone⟩, n, ?_, ?_⟩
      · simp [documentInit, h]
      · simp [h, normalizeContent_keys]

theorem buildDocs_id_keys (cs : List Content) (n : Nat) :
    ∃ ds n1, buildDocs cs ["_id"] n = .ok (ds, n1) ∧
      ds.map (fun d => d.content.map Prod.fst) =
        cs.map (fun c0 =>
          if (lookupContent c0 "_id").isSome then c0.map Prod.fst
          else c0.map Prod.fst ++ ["_id"]) := by
  induction cs generalizing n with
  | nil => exact ⟨[], n, rfl, rfl⟩
  | cons c0 rest ih =>
    rcases documentInit_id_keys c0 n with ⟨d, n1, hd, hk⟩
    rcases ih n1 with ⟨ds, n2, hds, hks⟩
    refine ⟨d :: ds, n2, ?_, ?_⟩
    · simp only [buildDocs, hd, hds, exceptBind_ok]
    · simp [hk, hks]

/-- Claim C7, amended: `project(fields)` raises `InvalidArgument` when
`fields` is not a list; on a nonempty RecordSet it succeeds and each
resulting record's field-name sequence is the requested fields that the
original record possesses — *plus* a freshly minted reserved `_id` field
whenever `_id` is not among the kept fields, because the slices are rebuilt
as Records under the default key-field convention (so the claim's "no
other field appears" fails; see the counterexample). On an empty RecordSet
the rebuild raises an `IndexError`. -/
theorem c7_amended_project (c : Collection) (fs : List String) (n : Nat) :
    (getItem c .notListF n = .error .invalidArgument) ∧
    (c.documents = [] → getItem c (.listF fs) n = .error .indexError) ∧
    (c.documents ≠ [] → exceptOk (getItem c (.listF fs) n) = true) ∧
    (∀ res n1, getItem c (.listF fs) n = .ok (res, n1) →
      res.name = c.name ∧
      res.documents.map (fun d => d.content.map Prod.fst) =
        c.documents.map (fun d =>
          if (fs.filter (fun f => (lookupContent d.content f).isSome)).contains "_id"
          then fs.filter (fun f => (lookupContent d.content f).isSome)
          else fs.filter (fun f => (lookupContent d.content f).isSome) ++ ["_id"])) := by
  have hrun : ∀ (d0 : Doc) (drest : List Doc), c.documents = d0 :: drest →
      ∀ (ds : List Doc) (n2 : Nat),
        buildDocs (sliceDoc fs d0 :: drest.map (sliceDoc fs)) ["_id"] n = .ok (ds, n2) →
        getItem c (.listF fs) n = .ok (⟨c.name, ds, []⟩, n2) := by
    intro d0 drest hcd ds n2 hds
    simp only [getItem, hcd, List.map_cons, collectionInit, filterMap_getInr_map_inr,
      hds, exceptBind_ok]
  refine ⟨rfl, ?_, ?_, ?_⟩
  · intro he
    simp only [getItem, he, List.map_nil, collectionInit]
  · intro hne
    rcases hcd : c.documents with _ | ⟨d0, drest⟩
    · exact absurd hcd hne
    · rcases buildDocs_id_keys (sliceDoc fs d0 :: drest.map (sliceDoc fs)) n
        with ⟨ds, n2, hds, hks⟩
      rw [hrun d0 drest hcd ds n2 hds]
      rfl
  · intro res n1 h
    rcases hcd : c.documents with _ | ⟨d0, drest⟩
    · simp only [getItem, hcd, List.map_nil, collectionInit] at h
      cases h
    · rcases buildDocs_id_keys (sliceDoc fs d0 :: drest.map (sliceDoc fs)) n
        with ⟨ds, n2, hds, hks⟩
      rw [hrun d0 drest hcd ds n2 hds] at h
      have hres : res = ⟨c.name, ds, []⟩ := by
        cases h
        rfl
      subst hres
      refine ⟨rfl, ?_⟩
      rw [hks]
      rw [show sliceDoc fs d0 :: drest.map (sliceDoc fs) = (d0 :: drest).map (sliceDoc fs)
        from rfl]
      rw [List.map_map]
      refine List.map_congr_left (fun d _ => ?_)
      simp only [Function.comp_apply, sliceDoc_keys, lookupContent_isSome_eq]

/-- Claim C7, amended, witness: at a concrete one-record collection
projected onto `["a"]`, the projection raises `InvalidArgument` for a
non-list argument and succeeds for the list one. -/
theorem c7_witness :
    getItem ⟨"C", [⟨[("a", Value.str "x"), ("_id", Value.oid "z")], "z"⟩], []⟩ .notListF 0 =
      .error .invalidArgument ∧
    exceptOk (getItem ⟨"C", [⟨[("a", Value.str "x"), ("_id", Value.oid "z")], "z"⟩], []⟩
      (.listF ["a"]) 0) = true :=
  ⟨(c7_amended_project ⟨"C", [⟨[("a", Value.str "x"), ("_id", Value.oid "z")], "z"⟩], []⟩
      ["a"] 0).1,
   (c7_amended_project ⟨"C", [⟨[("a", Value.str "x"), ("_id", Value.oid "z")], "z"⟩], []⟩
      ["a"] 0).2.2.1 (by decide)⟩

/-- Claim C8: `remove_ids(in_place=False)` does not leave the original
records unchanged. `new_doc = doc.content` aliases the content dict, so the
`pop('_id')` and the fresh mint performed while building the returned
collection mutate the original documents: afterward the original record's
content holds a freshly minted `_id` (`mid1`), not its original one
(`mid0`). -/
theorem c8_remove_ids_mutates_original :
    removeIds ⟨"C", [⟨[("name", Value.str "x"), ("_id", Value.oid "mid0")], "mid0"⟩], []⟩ 1 =
      .ok (⟨"C", [⟨[("name", Value.str "x"), ("_id", Value.oid "mid1")], "mid0"⟩], []⟩,
        ⟨"C", [⟨[("name", Value.str "x"), ("_id", Value.oid "mid1")], "mid1"⟩], []⟩, 2) ∧
    (⟨"C", [⟨[("name", Value.str "x"), ("_id", Value.oid "mid1")], "mid0"⟩], []⟩ : Collection).documents ≠
      (⟨"C", [⟨[("name", Value.str "x"), ("_id", Value.oid "mid0")], "mid0"⟩], []⟩ : Collection).documents := by
  decide

/-- Claim C10: `remove_ids(in_place=True)` assigns the raw content dicts —
not `Document` objects — to the internal sequence, so the invariant that
every element is a Record carrying an identity fails: the resulting
sequence contains a raw mapping (`Sum.inr`). -/
theorem c10_in_place_breaks_record_invariant :
    removeIdsInPlaceSeq ⟨"C", [⟨[("name", Value.str "x"), ("_id", Value.oid "mid0")], "mid0"⟩], []⟩ =
      [Sum.inr [("name", Value.str "x")]] ∧
    (removeIdsInPlaceSeq ⟨"C", [⟨[("name", Value.str "x"), ("_id", Value.oid "mid0")], "mid0"⟩], []⟩).all
      (fun e => e.isLeft) = false := by
  decide

end Multimongo
